import Mathlib

/-
Verification of the offline data dashboard's core logic: spreadsheet column
classification (src/lib/data.ts, processExcelFile), chart aggregation
(src/lib/data.ts, aggregateData), row filtering (src/components/BoardGrid.tsx,
getFilteredRows), common-column computation and dataset deletion
(src/App.tsx).  JavaScript numbers are modelled as rationals; JS strings as
Lean strings; rows as association lists from column names to values.
-/

set_option autoImplicit false

namespace Dashboard

/-- A loosely typed cell value as it occurs in a parsed spreadsheet row
(`DataRow` in src/lib/data.ts has `[key: string]: any`).  The values produced
by `sheet_to_json` and manipulated by the dashboard are strings, numbers and
booleans; JS numbers are modelled as rationals. -/
inductive Value where
  | vStr (s : String)
  | vNum (q : ℚ)
  | vBool (b : Bool)
  deriving DecidableEq

/-- Result of the JavaScript `Number(x)` coercion: NaN, an infinity, or a
finite number (modelled as a rational). -/
inductive JsNum where
  | nan
  | inf (positive : Bool)
  | fin (q : ℚ)
  deriving DecidableEq

/-- Whether a `Number(x)` result is NaN (JS `isNaN`). -/
def JsNum.isNaN : JsNum → Bool
  | .nan => true
  | _ => false

/-- Whether a `Number(x)` result is a finite number. -/
def JsNum.isFinite : JsNum → Bool
  | .fin _ => true
  | _ => false

/-- Rendering of a rational standing in for JS number-to-string conversion.
Integers render exactly as in JS; for non-integers this is a simplified
rendering (no claim settled below depends on the string form of a
non-integral number). -/
def ratStr (q : ℚ) : String :=
  if q.den = 1 then toString q.num else toString q.num ++ "/" ++ toString q.den

/-- JavaScript `String(x)` on a defined value. -/
def jsString : Value → String
  | .vStr s => s
  | .vNum q => ratStr q
  | .vBool b => if b then "true" else "false"

/-- JavaScript `String(x)` where `x` may be `undefined` (a missing object
property), which stringifies to `"undefined"`. -/
def jsStringU : Option Value → String
  | none => "undefined"
  | some v => jsString v

/-- Numeric value of a list of decimal digit characters. -/
def digitsVal (cs : List Char) : ℕ :=
  cs.foldl (fun n c => 10 * n + (c.toNat - 48)) 0

/-- Parse an unsigned decimal literal (digits, optionally with a decimal
point), as accepted by JS `Number` on strings; returns `none` when the
characters are not such a literal. -/
def parseDec (cs : List Char) : Option ℚ :=
  let intPart := cs.takeWhile (fun c => c.isDigit)
  let rest := cs.dropWhile (fun c => c.isDigit)
  match rest with
  | [] => if intPart.isEmpty then none else some (digitsVal intPart)
  | '.' :: fracPart =>
      if fracPart.all (fun c => c.isDigit) && !(intPart.isEmpty && fracPart.isEmpty) then
        some ((digitsVal intPart : ℚ) + (digitsVal fracPart : ℚ) / (10 ^ fracPart.length))
      else none
  | _ => none

/-- Whitespace trimming, as JS `Number` applies to its string argument
before parsing (a structural reimplementation of trimming on the character
list). -/
def jsTrim (s : String) : String :=
  String.mk (((s.toList.dropWhile Char.isWhitespace).reverse.dropWhile
    Char.isWhitespace).reverse)

/-- JavaScript `Number(s)` for a string `s`: trimmed empty strings coerce to
0, the `Infinity` forms to infinities, decimal literals to their value, and
anything else to NaN.  (Hexadecimal and exponent literal forms are omitted;
no claim settled below depends on them.) -/
def jsNumOfString (s : String) : JsNum :=
  let t := jsTrim s
  if t = "" then .fin 0
  else if t = "Infinity" || t = "+Infinity" then .inf true
  else if t = "-Infinity" then .inf false
  else
    match t.toList with
    | '-' :: cs =>
        match parseDec cs with
        | some q => .fin (-q)
        | none => .nan
    | '+' :: cs =>
        match parseDec cs with
        | some q => .fin q
        | none => .nan
    | cs =>
        match parseDec cs with
        | some q => .fin q
        | none => .nan

/-- JavaScript `Number(x)` coercion on a defined value. -/
def jsNumber : Value → JsNum
  | .vStr s => jsNumOfString s
  | .vNum q => .fin q
  | .vBool b => .fin (if b then 1 else 0)

/-- Whether a value is a JS boolean (`typeof val === 'boolean'`). -/
def isBoolVal : Value → Bool
  | .vBool _ => true
  | _ => false

/-- A parsed spreadsheet row: an insertion-ordered association list from
column names to values, standing for a JS object. -/
abbrev Row := List (String × Value)

/-- JavaScript property read `row[col]`: `none` stands for `undefined`. -/
def getVal : Row → String → Option Value
  | [], _ => none
  | (k, v) :: rest, col => if k == col then some v else getVal rest col

/-- JavaScript `Array.prototype.includes` on string arrays. -/
def includes (l : List String) (s : String) : Bool :=
  l.any (fun x => x == s)

/-- The coercion `Number(item[valueCol]) || 0` used by `aggregateData`:
NaN (including the NaN from reading a missing property) and 0 both yield 0.
(A JS infinity would propagate; the rational model maps it to 0, and no
claim settled below depends on non-finite cell values.) -/
def numOrZero (v : Option Value) : ℚ :=
  match v with
  | none => 0
  | some v' =>
      match jsNumber v' with
      | .fin q => q
      | _ => 0

/-! Filter evaluation (src/components/BoardGrid.tsx, getFilteredRows). -/

/-- A filter mapping, column name to selected string values (`slicers` /
`boardFilters` objects), as an insertion-ordered association list. -/
abbrev Filters := List (String × List String)

/-- One column check of the filter predicate in `getFilteredRows`: an empty
selection list imposes no constraint; a row lacking the column passes;
otherwise the stringified value must be among the selections. -/
def passesCol (row : Row) (col : String) (selectedVals : List String) : Bool :=
  if selectedVals.length = 0 then true
  else
    match getVal row col with
    | none => true
    | some v => includes selectedVals (jsString v)

/-- The row predicate of `getFilteredRows`: the global slicers must all pass,
and, when board-local filters are present, they must all pass too. -/
def rowPasses (slicers : Filters) (boardFilters : Option Filters) (row : Row) : Bool :=
  let passesGlobal := slicers.all (fun p => passesCol row p.1 p.2)
  if passesGlobal = false then false
  else
    match boardFilters with
    | some bf => bf.all (fun p => passesCol row p.1 p.2)
    | none => true

/-! Aggregation (src/lib/data.ts, aggregateData).  `_.groupBy(data, categoryCol)`
builds a plain JS object keyed by the stringified category value, each key
holding the matching rows in input order; the object is modelled as an
insertion-ordered association list plus the ECMAScript own-property key
ordering for `Object.keys`. -/

/-- The aggregation operation (`'sum' | 'count' | 'avg'`). -/
inductive Op where
  | sum
  | count
  | avg
  deriving DecidableEq

/-- One entry of the list returned by `aggregateData`. -/
structure AggResult where
  name : String
  value : ℚ
  deriving DecidableEq

/-- The stringified category value of a row, used as the grouping key
(a missing property stringifies to `"undefined"`). -/
def rowKey (categoryCol : String) (row : Row) : String :=
  jsStringU (getVal row categoryCol)

/-- Add one row under its key to the grouping object: an existing key has the
row appended to its bucket, a new key is appended at the end (JS property
insertion order). -/
def insertGroup (key : String) (row : Row) :
    List (String × List Row) → List (String × List Row)
  | [] => [(key, [row])]
  | (k, rs) :: rest =>
      if k == key then (k, rs ++ [row]) :: rest
      else (k, rs) :: insertGroup key row rest

/-- The grouping object built by `_.groupBy(data, categoryCol)`. -/
def groupByJs (categoryCol : String) (data : List Row) : List (String × List Row) :=
  data.foldl (fun acc row => insertGroup (rowKey categoryCol row) row acc) []

/-- The property read `grouped[key]` on the grouping object (always a
present key in `aggregateData`; an absent key is mapped to the empty
bucket). -/
def lookupGroup (key : String) : List (String × List Row) → List Row
  | [] => []
  | (k, rs) :: rest => if k == key then rs else lookupGroup key rest

/-- Numeric reading of a string of decimal digits (a structural
reimplementation of `String.toNat?`): `none` unless the string is non-empty
and all digits. -/
def strNat? (s : String) : Option ℕ :=
  if s.toList ≠ [] ∧ s.toList.all Char.isDigit then some (digitsVal s.toList) else none

/-- Whether a string is a canonical ECMAScript array index (the canonical
base-10 form of an integer below 2^32 - 1). -/
def isArrayIndex (s : String) : Bool :=
  match strNat? s with
  | some n => if toString n = s ∧ n < 4294967295 then true else false
  | none => false

/-- Comparison used to order array-index keys numerically. -/
def keyLe (a b : String) : Prop :=
  (strNat? a).getD 0 ≤ (strNat? b).getD 0

instance : DecidableRel keyLe := fun a b =>
  Nat.decLe ((strNat? a).getD 0) ((strNat? b).getD 0)

/-- ECMAScript own-property key order for a plain object whose keys were
created in the given order: array-index keys first in ascending numeric
order, then the remaining keys in creation order. -/
def objectKeys (keys : List String) : List String :=
  List.insertionSort keyLe (keys.filter (fun k => isArrayIndex k)) ++
    keys.filter (fun k => !isArrayIndex k)

/-- JS `Math.round(x)`: the closest integer, ties toward positive infinity;
in exact arithmetic this is the floor of `x + 1/2`. -/
def mathRound (q : ℚ) : ℚ :=
  (⌊q + 1 / 2⌋ : ℚ)

/-- The rounding `Math.round(value * 100) / 100` applied to every aggregate
value in `aggregateData`. -/
def round2 (q : ℚ) : ℚ :=
  mathRound (q * 100) / 100

/-- The pre-rounding aggregate of a group: the group size for `count`, the
sum of `Number(item[valueCol]) || 0` over the group for `sum`, and that sum
divided by the group size for `avg`. -/
def aggValue (op : Op) (valueCol : String) (items : List Row) : ℚ :=
  match op with
  | .count => items.length
  | .sum => (items.map (fun it => numOrZero (getVal it valueCol))).sum
  | .avg => (items.map (fun it => numOrZero (getVal it valueCol))).sum / items.length

/-- The function `aggregateData` of src/lib/data.ts: group the rows by the
stringified category value, then map over `Object.keys` of the grouping
object, producing one `{name, value}` per group with the value rounded to
two decimals. -/
def aggregateData (data : List Row) (categoryCol valueCol : String) (op : Op) :
    List AggResult :=
  let grouped := groupByJs categoryCol data
  (objectKeys (grouped.map Prod.fst)).map (fun key =>
    { name := key, value := round2 (aggValue op valueCol (lookupGroup key grouped)) })

/-! Column classification (src/lib/data.ts, processExcelFile). -/

/-- The test `!isNaN(Number(val)) && typeof val !== 'boolean'` of
processExcelFile. -/
def isNumCheck (v : Value) : Bool :=
  !(jsNumber v).isNaN && !isBoolVal v

/-- The test `!isNaN(Date.parse(val)) && (val.toString().includes('-') ||
val.toString().includes('/'))` of processExcelFile.  `Date.parse` is
implementation-defined for non-ISO strings, so its success is taken as an
oracle parameter `dateParse` applied to the stringified value. -/
def isDateCheck (dateParse : String → Bool) (v : Value) : Bool :=
  dateParse (jsString v) &&
    ((jsString v).contains '-' || (jsString v).contains '/')

/-- Classification of one sample value: numeric wins over date, date over
text. -/
inductive ColClass where
  | numeric
  | date
  | text
  deriving DecidableEq

/-- The if/else-if/else classification applied by processExcelFile to the
value of a column in the first parsed row. -/
def classifyValue (dateParse : String → Bool) (v : Value) : ColClass :=
  if isNumCheck v then .numeric
  else if isDateCheck dateParse v then .date
  else .text

/-- Classification of a column of the sample row.  The `none` branch is
unreachable for keys of the row (`Object.keys` yields only present keys). -/
def classifyCol (dateParse : String → Bool) (row : Row) (c : String) : ColClass :=
  match getVal row c with
  | some v => classifyValue dateParse v
  | none => .text

/-- The column list `Object.keys(sampleRow)`. -/
def columnsOf (sampleRow : Row) : List String :=
  sampleRow.map Prod.fst

/-- The `numericColumns` accumulated by the forEach of processExcelFile. -/
def numericColumnsOf (dateParse : String → Bool) (row : Row) : List String :=
  (columnsOf row).filter (fun c => classifyCol dateParse row c == ColClass.numeric)

/-- The `dateColumns` accumulated by the forEach of processExcelFile. -/
def dateColumnsOf (dateParse : String → Bool) (row : Row) : List String :=
  (columnsOf row).filter (fun c => classifyCol dateParse row c == ColClass.date)

/-- The `textColumns` accumulated by the forEach of processExcelFile,
before the fallback. -/
def textColumnsOf (dateParse : String → Bool) (row : Row) : List String :=
  (columnsOf row).filter (fun c => classifyCol dateParse row c == ColClass.text)

/-- The fallback `textColumns.length > 0 ? textColumns : columns` applied to
the resolved dataset. -/
def textColumnsFinal (dateParse : String → Bool) (row : Row) : List String :=
  if (textColumnsOf dateParse row).length > 0 then textColumnsOf dateParse row
  else columnsOf row

/-- A parsed dataset (interface `Dataset` in src/lib/data.ts). -/
structure Dataset where
  id : String
  name : String
  rows : List Row
  columns : List String
  numericColumns : List String
  dateColumns : List String
  textColumns : List String
  deriving DecidableEq

/-- The lookup `datasets.find(d => d.id === datasetId)`. -/
def findDataset (datasets : List Dataset) (datasetId : String) : Option Dataset :=
  datasets.find? (fun d => d.id == datasetId)

/-- The helper `getFilteredRows` of BoardGrid: an unknown dataset id yields
the empty list, otherwise the dataset's rows filtered by `rowPasses`. -/
def getFilteredRows (datasets : List Dataset) (slicers : Filters)
    (boardFilters : Option Filters) (datasetId : String) : List Row :=
  match findDataset datasets datasetId with
  | none => []
  | some ds => ds.rows.filter (rowPasses slicers boardFilters)

/-! File import (src/lib/data.ts processExcelFile and src/App.tsx
handleFileChange). -/

/-- The body of processExcelFile after the workbook has been converted to
row objects: an empty first sheet raises `"Excel file is empty"`, otherwise
the dataset is built from the first parsed row.  The generated random id and
the file name are parameters. -/
def processParsedRows (dateParse : String → Bool) (newId fileName : String) :
    List Row → Except String Dataset
  | [] => .error "Excel file is empty"
  | sampleRow :: rest =>
      .ok { id := newId
            name := fileName
            rows := sampleRow :: rest
            columns := columnsOf sampleRow
            numericColumns := numericColumnsOf dateParse sampleRow
            dateColumns := dateColumnsOf dateParse sampleRow
            textColumns := textColumnsFinal dateParse sampleRow }

/-- Outcome of one file import: a corrupt workbook makes `XLSX.read` or
`sheet_to_json` throw (modelled as an incoming `Except.error`), otherwise
the parsed rows are processed by `processParsedRows`. -/
def importOutcome (dateParse : String → Bool) (newId fileName : String)
    (readResult : Except String (List Row)) : Except String Dataset :=
  match readResult with
  | .error e => .error e
  | .ok jsonData => processParsedRows dateParse newId fileName jsonData

/-! Board and application state (src/App.tsx). -/

/-- A widget placement rectangle (interface `Layout`). -/
structure LayoutItem where
  i : String
  x : Int
  y : Int
  w : Int
  h : Int
  minW : Option Int
  minH : Option Int
  deriving DecidableEq

/-- A chart kind (`'bar' | 'line' | 'pie' | 'timeline' | 'radar'`). -/
inductive ChartType where
  | bar
  | line
  | pie
  | timeline
  | radar
  deriving DecidableEq

/-- A widget definition (interface `WidgetItem`).  The `config` payload is
`any` in the source and none of its structure matters to the claims, so it
is carried as an uninterpreted string. -/
structure WidgetItem where
  i : String
  datasetId : String
  type : ChartType
  title : String
  config : String
  deriving DecidableEq

/-- A board (interface `Board` in src/App.tsx). -/
structure Board where
  id : String
  name : String
  layout : List LayoutItem
  widgets : List WidgetItem
  filters : Option Filters
  createdAt : ℕ
  deriving DecidableEq

/-- The application state relevant to the claims: the dataset registry, the
active dataset selection and the board list. -/
structure AppState where
  datasets : List Dataset
  activeDatasetId : Option String
  boards : List Board
  deriving DecidableEq

/-- The confirmed branch of `removeDataset` in src/App.tsx: drop the dataset,
drop from every board the widgets bound to it and the layout entries whose id
is no longer a remaining widget id, and move the active selection off the
deleted dataset. -/
def removeDataset (st : AppState) (id : String) : AppState :=
  let newDatasets := st.datasets.filter (fun d => d.id != id)
  let newBoards := st.boards.map (fun board =>
    let remainingWidgets := board.widgets.filter (fun w => w.datasetId != id)
    let remainingWidgetIds := remainingWidgets.map (fun w => w.i)
    let remainingLayout := board.layout.filter (fun l => includes remainingWidgetIds l.i)
    { board with widgets := remainingWidgets, layout := remainingLayout })
  { datasets := newDatasets
    boards := newBoards
    activeDatasetId :=
      if st.activeDatasetId = some id then
        match newDatasets with
        | [] => none
        | d :: _ => some d.id
      else st.activeDatasetId }

/-- The ids of the widgets that deleting dataset `id` removes from a board:
those whose `datasetId` is the deleted id. -/
def removedWidgetIds (board : Board) (id : String) : List String :=
  (board.widgets.filter (fun w => w.datasetId == id)).map (fun w => w.i)

/-- The alert text shown by handleFileChange when parsing fails. -/
def parseErrorAlert : String := "文件解析失败，请检查是否为有效的 Excel 文件"

/-- Result of the import handler: the next application state and the alert
messages shown to the user. -/
structure ImportStep where
  state : AppState
  alerts : List String
  deriving DecidableEq

/-- The handler `handleFileChange` of src/App.tsx, given the outcome of
`processExcelFile`: on success the dataset is appended to the registry and
becomes active; on failure one alert is shown and the state is untouched. -/
def handleFileChange (st : AppState) (outcome : Except String Dataset) : ImportStep :=
  match outcome with
  | .ok d =>
      { state := { st with datasets := st.datasets ++ [d], activeDatasetId := some d.id }
        alerts := [] }
  | .error _ => { state := st, alerts := [parseErrorAlert] }

/-! Common-column computation (src/App.tsx, `commonColumns` and
`getBoardSpecificData`). -/

/-- Removal of duplicates keeping first occurrences, with an accumulator of
already seen values; models the SameValueZero deduplication performed by
lodash `intersection`. -/
def dedupKeep (seen : List String) : List String → List String
  | [] => []
  | x :: xs => if includes seen x then dedupKeep seen xs else x :: dedupKeep (x :: seen) xs

/-- Lodash `_.intersection(...arrays)`: the unique values of the first array
that are included in every other array, in first-array order. -/
def intersectionLists : List (List String) → List String
  | [] => []
  | xs :: rest => dedupKeep [] (xs.filter (fun c => rest.all (fun ys => includes ys c)))

/-- The memo `commonColumns` of src/App.tsx: empty registry yields no
columns, a single dataset yields its column list, otherwise the lodash
intersection of all column lists. -/
def commonColumns : List Dataset → List String
  | [] => []
  | [d] => d.columns
  | datasets => intersectionLists (datasets.map (fun d => d.columns))

/-- The datasets referenced by a board's widgets
(`datasets.filter(d => usedDatasetIds.has(d.id))`). -/
def usedDatasets (datasets : List Dataset) (board : Board) : List Dataset :=
  datasets.filter (fun d => includes (board.widgets.map (fun w => w.datasetId)) d.id)

/-- The `columns` field computed by `getBoardSpecificData`: the lodash
intersection of the column lists of the datasets used by the board, or the
empty list when the board uses no dataset. -/
def boardColumns (datasets : List Dataset) (board : Board) : List String :=
  if (usedDatasets datasets board).length = 0 then []
  else intersectionLists ((usedDatasets datasets board).map (fun d => d.columns))

/-! Concrete data used by example conjuncts, witnesses and counterexamples. -/

/-- A date-parse oracle that accepts nothing. -/
def dpNone : String → Bool := fun _ => false

/-- A date-parse oracle that accepts everything. -/
def dpAll : String → Bool := fun _ => true

/-- A dataset with column set A, B, C (only the columns matter here). -/
def dsABC : Dataset :=
  { id := "ds1", name := "a.xlsx", rows := [], columns := ["A", "B", "C"],
    numericColumns := [], dateColumns := [], textColumns := ["A", "B", "C"] }

/-- A dataset with column set B, C, D (only the columns matter here). -/
def dsBCD : Dataset :=
  { id := "ds2", name := "b.xlsx", rows := [], columns := ["B", "C", "D"],
    numericColumns := [], dateColumns := [], textColumns := ["B", "C", "D"] }

/-- One row whose value column holds the number 0.001, under category A. -/
def milliRows : List Row :=
  [[("cat", Value.vStr "A"), ("val", Value.vNum (1 / 1000))]]

/-- Three rows with values 10, 20, 15 under category A (the average
example of the specification). -/
def avgRows : List Row :=
  [[("cat", Value.vStr "A"), ("val", Value.vNum 10)],
   [("cat", Value.vStr "A"), ("val", Value.vNum 20)],
   [("cat", Value.vStr "A"), ("val", Value.vNum 15)]]

/-- Two rows whose stringified categories are the array-index strings "2"
and "1", in that input order. -/
def idxRows : List Row :=
  [[("cat", Value.vStr "2")], [("cat", Value.vStr "1")]]

/-- A first row whose single cell is the string Infinity. -/
def infRow : Row := [("x", Value.vStr "Infinity")]

/-- The spec's wording of the numeric test, for comparison with the code's
`isNumCheck`.  Modelled from the spec: the column is classified numeric iff
its value coerces to a finite number and is not boolean. -/
def specIsNumeric (v : Value) : Bool :=
  (jsNumber v).isFinite && !isBoolVal v

/-- A first row with one numeric cell (used to witness the text-bucket
fallback). -/
def numRow : Row := [("a", Value.vNum 1)]

/-- The dataset produced by importing a sheet whose only row is `numRow`. -/
def numRowDataset : Dataset :=
  { id := "id1", name := "n.xlsx", rows := [numRow], columns := ["a"],
    numericColumns := ["a"], dateColumns := [], textColumns := ["a"] }

/-- A small dataset with one data row, used by filter witnesses. -/
def dsSmall : Dataset :=
  { id := "d0", name := "s.xlsx", rows := [[("A", Value.vStr "u")]],
    columns := ["A"], numericColumns := [], dateColumns := [], textColumns := ["A"] }

/-- A widget bound to dataset ds1. -/
def widget1 : WidgetItem :=
  { i := "w1", datasetId := "ds1", type := .bar, title := "t1", config := "" }

/-- A widget bound to dataset ds2. -/
def widget2 : WidgetItem :=
  { i := "w2", datasetId := "ds2", type := .line, title := "t2", config := "" }

/-- A layout entry for widget w1. -/
def layout1 : LayoutItem :=
  { i := "w1", x := 0, y := 0, w := 4, h := 6, minW := some 2, minH := some 3 }

/-- A layout entry for widget w2. -/
def layout2 : LayoutItem :=
  { i := "w2", x := 4, y := 0, w := 4, h := 6, minW := some 2, minH := some 3 }

/-- A board holding widgets w1 and w2 with their layout entries. -/
def boardMixed : Board :=
  { id := "b1", name := "board", layout := [layout1, layout2],
    widgets := [widget1, widget2], filters := some [], createdAt := 7 }

/-- An application state with two datasets and one mixed board. -/
def stMixed : AppState :=
  { datasets := [dsABC, dsBCD], activeDatasetId := some "ds1",
    boards := [boardMixed] }

/-! Helper lemmas. -/

/-- Membership characterisation of the JS `includes` model. -/
theorem includes_iff {l : List String} {s : String} : includes l s = true ↔ s ∈ l := by
  simp [includes, List.any_eq_true]

/-- One filter column passes exactly when a non-empty selection list forces
the row to lack the column or its stringified value to be selected. -/
theorem passesCol_iff {row : Row} {col : String} {vals : List String} :
    passesCol row col vals = true ↔
      (vals ≠ [] → ∀ v, getVal row col = some v → jsString v ∈ vals) := by
  unfold passesCol
  rcases vals with _ | ⟨a, vs⟩
  · simp
  · cases h : getVal row col
    · simp [h]
    · simp [h, includes_iff]

/-- The filter predicate of `getFilteredRows` as the conjunction of the
per-column checks of both filter layers. -/
theorem rowPasses_eq (slicers : Filters) (bf : Option Filters) (row : Row) :
    rowPasses slicers bf row =
      (slicers.all (fun p => passesCol row p.1 p.2) &&
        (bf.getD []).all (fun p => passesCol row p.1 p.2)) := by
  unfold rowPasses
  rcases bf with _ | bfl <;>
    cases h : slicers.all (fun p => passesCol row p.1 p.2) <;> simp [h]

/-- Claim C1: a row passes the filter iff, for every column of the global
mapping and of the board-local mapping (when present) whose selection list
is non-empty, the row either lacks that column or its stringified value is
among the selections; and a row subject to no non-empty selection always
passes. -/
theorem C1_filter_evaluation (slicers : Filters) (bf : Option Filters) (row : Row) :
    (rowPasses slicers bf row = true ↔
      ∀ col vals, (col, vals) ∈ slicers ++ bf.getD [] → vals ≠ [] →
        ∀ v, getVal row col = some v → jsString v ∈ vals) ∧
    ((∀ col vals, (col, vals) ∈ slicers ++ bf.getD [] → vals = []) →
      rowPasses slicers bf row = true) := by
  have hiff : rowPasses slicers bf row = true ↔
      ∀ col vals, (col, vals) ∈ slicers ++ bf.getD [] → vals ≠ [] →
        ∀ v, getVal row col = some v → jsString v ∈ vals := by
    rw [rowPasses_eq, Bool.and_eq_true, List.all_eq_true, List.all_eq_true]
    constructor
    · rintro ⟨hg, hl⟩ col vals hmem
      rcases List.mem_append.1 hmem with h | h
      · exact passesCol_iff.1 (hg _ h)
      · exact passesCol_iff.1 (hl _ h)
    · intro h
      refine ⟨fun p hp => ?_, fun p hp => ?_⟩
      · exact passesCol_iff.2 (h p.1 p.2 (List.mem_append.2 (Or.inl hp)))
      · exact passesCol_iff.2 (h p.1 p.2 (List.mem_append.2 (Or.inr hp)))
  refine ⟨hiff, fun h => hiff.2 fun col vals hmem hne _ _ => ?_⟩
  exact absurd (h col vals hmem) hne

/-- Claim C10: the filtered rows are an order-preserving subsequence of the
found dataset's row list (and the empty list when no dataset in the registry
has the requested id). -/
theorem C10_filter_subsequence (datasets : List Dataset) (slicers : Filters)
    (bf : Option Filters) (datasetId : String) :
    List.Sublist (getFilteredRows datasets slicers bf datasetId)
      ((findDataset datasets datasetId).elim [] Dataset.rows) ∧
    (findDataset datasets datasetId = none →
      getFilteredRows datasets slicers bf datasetId = []) := by
  unfold getFilteredRows
  cases h : findDataset datasets datasetId with
  | none => simp
  | some ds => exact ⟨List.filter_sublist ds.rows, by simp⟩

/-- Keys of the grouping object after one insertion: an existing key leaves
the key list unchanged, a new key is appended. -/
theorem insertGroup_map_fst (key : String) (row : Row) (acc : List (String × List Row)) :
    (insertGroup key row acc).map Prod.fst =
      if key ∈ acc.map Prod.fst then acc.map Prod.fst else acc.map Prod.fst ++ [key] := by
  induction acc with
  | nil => simp [insertGroup]
  | cons p rest ih =>
      obtain ⟨k, rs⟩ := p
      by_cases hk : k = key
      · subst hk
        simp [insertGroup]
      · by_cases hmem : key ∈ rest.map Prod.fst <;>
          simp [insertGroup, hk, Ne.symm hk, hmem, ih]

/-- Deduplication only depends on the membership of the seen accumulator. -/
theorem dedupKeep_congr {seen₁ seen₂ : List String} (l : List String)
    (h : ∀ x, x ∈ seen₁ ↔ x ∈ seen₂) : dedupKeep seen₁ l = dedupKeep seen₂ l := by
  induction l generalizing seen₁ seen₂ with
  | nil => rfl
  | cons x xs ih =>
      by_cases hx : x ∈ seen₁
      · have hx₂ : x ∈ seen₂ := (h x).1 hx
        simp only [dedupKeep, includes_iff, hx, hx₂, if_pos]
        exact ih h
      · have hx₂ : x ∉ seen₂ := fun hc => hx ((h x).2 hc)
        simp only [dedupKeep, includes_iff, hx, hx₂, if_neg, not_false_iff]
        exact congrArg (x :: ·) (ih fun y => by
          simp only [List.mem_cons]
          exact or_congr Iff.rfl (h y))

/-- The key list accumulated by the groupBy fold: the accumulator's keys
followed by the unseen stringified category values in first-occurrence
order. -/
theorem groupBy_foldl_keys (categoryCol : String) (data : List Row)
    (acc : List (String × List Row)) :
    (data.foldl (fun a r => insertGroup (rowKey categoryCol r) r a) acc).map Prod.fst =
      acc.map Prod.fst ++ dedupKeep (acc.map Prod.fst) (data.map (rowKey categoryCol)) := by
  induction data generalizing acc with
  | nil => simp [dedupKeep]
  | cons r rest ih =>
      simp only [List.foldl_cons, List.map_cons]
      rw [ih]
      by_cases hmem : rowKey categoryCol r ∈ acc.map Prod.fst
      · rw [insertGroup_map_fst, if_pos hmem]
        have hd : dedupKeep (acc.map Prod.fst)
            (rowKey categoryCol r :: rest.map (rowKey categoryCol)) =
            dedupKeep (acc.map Prod.fst) (rest.map (rowKey categoryCol)) := by
          simp only [dedupKeep]
          rw [if_pos (includes_iff.2 hmem)]
        rw [hd]
      · rw [insertGroup_map_fst, if_neg hmem]
        have hcongr : dedupKeep (acc.map Prod.fst ++ [rowKey categoryCol r])
            (rest.map (rowKey categoryCol)) =
            dedupKeep (rowKey categoryCol r :: acc.map Prod.fst)
              (rest.map (rowKey categoryCol)) :=
          dedupKeep_congr _ (fun y => by simp [or_comm])
        have hd : dedupKeep (acc.map Prod.fst)
            (rowKey categoryCol r :: rest.map (rowKey categoryCol)) =
            rowKey categoryCol r :: dedupKeep (rowKey categoryCol r :: acc.map Prod.fst)
              (rest.map (rowKey categoryCol)) := by
          simp only [dedupKeep]
          rw [if_neg (fun hc => hmem (includes_iff.1 hc))]
        rw [hcongr, hd]
        simp

/-- The keys of `_.groupBy(data, categoryCol)` are the distinct stringified
category values in first-occurrence order. -/
theorem groupByJs_keys (categoryCol : String) (data : List Row) :
    (groupByJs categoryCol data).map Prod.fst =
      dedupKeep [] (data.map (rowKey categoryCol)) := by
  have h := groupBy_foldl_keys categoryCol data []
  simpa [groupByJs] using h

/-- Unfolding equation of `lookupGroup` with a propositional condition. -/
theorem lookupGroup_cons (key k : String) (rs : List Row)
    (rest : List (String × List Row)) :
    lookupGroup key ((k, rs) :: rest) =
      if k = key then rs else lookupGroup key rest := by
  simp only [lookupGroup, beq_iff_eq]

/-- Unfolding equation of `insertGroup` with a propositional condition. -/
theorem insertGroup_cons (key k : String) (row : Row) (rs : List Row)
    (rest : List (String × List Row)) :
    insertGroup key row ((k, rs) :: rest) =
      if k = key then (k, rs ++ [row]) :: rest
      else (k, rs) :: insertGroup key row rest := by
  simp only [insertGroup, beq_iff_eq]

/-- Reading a key from the grouping object after one insertion. -/
theorem lookupGroup_insertGroup (key k : String) (row : Row)
    (acc : List (String × List Row)) :
    lookupGroup key (insertGroup k row acc) =
      if k = key then lookupGroup key acc ++ [row] else lookupGroup key acc := by
  induction acc with
  | nil =>
      by_cases h : k = key
      · rw [if_pos h]
        show lookupGroup key [(k, [row])] = lookupGroup key [] ++ [row]
        rw [lookupGroup_cons, if_pos h]
        rfl
      · rw [if_neg h]
        show lookupGroup key [(k, [row])] = lookupGroup key []
        rw [lookupGroup_cons, if_neg h]
  | cons p rest ih =>
      obtain ⟨k', rs⟩ := p
      rw [insertGroup_cons]
      by_cases h1 : k = k'
      · rw [if_pos h1.symm, lookupGroup_cons, lookupGroup_cons]
        by_cases h2 : k' = key
        · have hk : k = key := h1.trans h2
          rw [if_pos h2, if_pos h2, if_pos hk]
        · have hk : ¬k = key := fun hc => h2 (h1.symm.trans hc)
          rw [if_neg h2, if_neg h2, if_neg hk]
      · rw [if_neg (fun hc => h1 hc.symm), lookupGroup_cons, lookupGroup_cons, ih]
        by_cases h2 : k' = key
        · have hk : ¬k = key := fun hc => h1 (hc.trans h2.symm)
          simp [h2, hk]
        · by_cases h3 : k = key <;> simp [h2, h3]

/-- The bucket accumulated for a key by the groupBy fold: the accumulator's
bucket followed by the matching rows in input order. -/
theorem lookupGroup_foldl (categoryCol key : String) (data : List Row)
    (acc : List (String × List Row)) :
    lookupGroup key (data.foldl (fun a r => insertGroup (rowKey categoryCol r) r a) acc) =
      lookupGroup key acc ++ data.filter (fun r => rowKey categoryCol r == key) := by
  induction data generalizing acc with
  | nil => simp only [List.foldl_nil, List.filter_nil, List.append_nil]
  | cons r rest ih =>
      simp only [List.foldl_cons, List.filter_cons]
      rw [ih, lookupGroup_insertGroup]
      by_cases h : rowKey categoryCol r = key
      · rw [if_pos h, if_pos (beq_iff_eq.mpr h)]
        simp
      · rw [if_neg h, if_neg (fun hc => h (beq_iff_eq.mp hc))]

/-- A group of `_.groupBy(data, categoryCol)` holds exactly the rows whose
stringified category value is its key, in input order. -/
theorem lookupGroup_groupByJs (categoryCol key : String) (data : List Row) :
    lookupGroup key (groupByJs categoryCol data) =
      data.filter (fun r => rowKey categoryCol r == key) := by
  have h := lookupGroup_foldl categoryCol key data []
  simpa [groupByJs, lookupGroup] using h

/-- Closed form of `aggregateData`: one result per distinct stringified
category value (in JS object key order), whose group is the filter of the
input by that key and whose value is the rounded aggregate of the group. -/
theorem aggregateData_eq (data : List Row) (c v : String) (op : Op) :
    aggregateData data c v op =
      (objectKeys (dedupKeep [] (data.map (rowKey c)))).map (fun key =>
        { name := key,
          value := round2 (aggValue op v (data.filter (fun r => rowKey c r == key))) }) := by
  unfold aggregateData
  show List.map
      (fun key =>
        ({ name := key,
           value := round2 (aggValue op v (lookupGroup key (groupByJs c data))) } : AggResult))
      (objectKeys (List.map Prod.fst (groupByJs c data))) = _
  rw [groupByJs_keys]
  refine List.map_congr_left fun key _ => ?_
  rw [lookupGroup_groupByJs]

/-- The result names of `aggregateData` are the distinct stringified
category values in JS object key order. -/
theorem aggregateData_names (data : List Row) (c v : String) (op : Op) :
    (aggregateData data c v op).map AggResult.name =
      objectKeys (dedupKeep [] (data.map (rowKey c))) := by
  rw [aggregateData_eq, List.map_map]
  exact List.map_id _

/-- Evaluation rule for the two-decimal rounding: bracketing the shifted
value between an integer and its successor fixes the result. -/
theorem round2_eval (q : ℚ) (n : ℤ) (h1 : (n : ℚ) ≤ q * 100 + 1 / 2)
    (h2 : q * 100 + 1 / 2 < n + 1) : round2 q = (n : ℚ) / 100 := by
  unfold round2 mathRound
  rw [Int.floor_eq_iff.mpr ⟨h1, by exact_mod_cast h2⟩]

/-- Claim C2, amended: every result value carries the two-decimal rounding
`Math.round(value * 100) / 100` that the code applies to the aggregate.
With that rounding, aggregateData yields one result per group (the rows
sharing a stringified category value), valued at the rounded group size for
count, rounded coerced sum for sum, and rounded sum over size for average;
count on an empty input yields the empty list, and averaging 10, 20, 15
under category A yields the single result named A with value 15. -/
theorem C2_aggregation_semantics (data : List Row) (c v : String) (op : Op) :
    (aggregateData data c v op =
      (objectKeys (dedupKeep [] (data.map (rowKey c)))).map (fun key =>
        { name := key,
          value := round2 (aggValue op v (data.filter (fun r => rowKey c r == key))) })) ∧
    aggregateData [] c v Op.count = [] ∧
    aggregateData avgRows "cat" "val" Op.avg = [{ name := "A", value := 15 }] := by
  refine ⟨aggregateData_eq data c v op, rfl, ?_⟩
  rw [aggregateData_eq]
  have h1 : dedupKeep [] (avgRows.map (rowKey "cat")) = ["A"] := rfl
  have h3 : avgRows.filter (fun r => rowKey "cat" r == "A") = avgRows := rfl
  rw [h1, show objectKeys ["A"] = ["A"] from rfl]
  simp only [List.map_cons, List.map_nil, h3]
  have h4 : aggValue Op.avg "val" avgRows = 45 / 3 := by
    show (avgRows.map (fun it => numOrZero (getVal it "val"))).sum / (avgRows.length : ℚ) =
      45 / 3
    rw [show avgRows.map (fun it => numOrZero (getVal it "val")) = [10, 20, 15] from rfl]
    norm_num [avgRows]
  rw [h4, round2_eval (45 / 3) 1500 (by norm_num) (by norm_num)]
  norm_num

/-- Counterexample to claim C2 as stated: for the single row with value
0.001 under category A, the summed aggregate is 1/1000 but aggregateData
reports 0 (the rounding to two decimals collapses it), so the result value
is not the sum of the coerced values. -/
theorem C2_counterexample :
    aggregateData milliRows "cat" "val" Op.sum = [{ name := "A", value := 0 }] ∧
    (milliRows.map (fun r => numOrZero (getVal r "val"))).sum = 1 / 1000 ∧
    aggregateData milliRows "cat" "val" Op.sum ≠ [{ name := "A", value := 1 / 1000 }] := by
  have hsum : (milliRows.map (fun r => numOrZero (getVal r "val"))).sum = 1 / 1000 := by
    rw [show milliRows.map (fun r => numOrZero (getVal r "val")) = [1 / 1000] from rfl]
    simp
  have hagg : aggregateData milliRows "cat" "val" Op.sum = [{ name := "A", value := 0 }] := by
    rw [aggregateData_eq]
    have h1 : dedupKeep [] (milliRows.map (rowKey "cat")) = ["A"] := rfl
    have h3 : milliRows.filter (fun r => rowKey "cat" r == "A") = milliRows := rfl
    rw [h1, show objectKeys ["A"] = ["A"] from rfl]
    simp only [List.map_cons, List.map_nil, h3]
    have h4 : aggValue Op.sum "val" milliRows = 1 / 1000 := hsum
    rw [h4, round2_eval (1 / 1000) 0 (by norm_num) (by norm_num)]
    norm_num
  refine ⟨hagg, hsum, ?_⟩
  rw [hagg]
  simp only [ne_eq, List.cons.injEq, AggResult.mk.injEq, true_and, and_true]
  norm_num

/-- Claim C3, amended: the result list enumerates the groups in ECMAScript
own-property key order, that is, stringified category values that are
canonical array-index strings first in ascending numeric order, then the
remaining values in first-occurrence order of the input sequence. -/
theorem C3_group_order (data : List Row) (c v : String) (op : Op) :
    (aggregateData data c v op).map AggResult.name =
      objectKeys (dedupKeep [] (data.map (rowKey c))) :=
  aggregateData_names data c v op

/-- Counterexample to claim C3 as stated: with category values "2" then "1"
(both array-index strings), aggregateData enumerates the groups as "1", "2"
rather than in first-occurrence order "2", "1". -/
theorem C3_counterexample :
    (aggregateData idxRows "cat" "val" Op.count).map AggResult.name = ["1", "2"] ∧
    dedupKeep [] (idxRows.map (rowKey "cat")) = ["2", "1"] ∧
    (aggregateData idxRows "cat" "val" Op.count).map AggResult.name ≠
      dedupKeep [] (idxRows.map (rowKey "cat")) := by
  have h1 : (aggregateData idxRows "cat" "val" Op.count).map AggResult.name = ["1", "2"] := by
    rw [aggregateData_names]
    rfl
  refine ⟨h1, rfl, ?_⟩
  rw [h1, show dedupKeep [] (idxRows.map (rowKey "cat")) = ["2", "1"] from rfl]
  decide

/-- Membership in the deduplicated list: in the input and not already
seen. -/
theorem mem_dedupKeep {c : String} (seen l : List String) :
    c ∈ dedupKeep seen l ↔ c ∈ l ∧ c ∉ seen := by
  induction l generalizing seen with
  | nil => simp [dedupKeep]
  | cons x xs ih =>
      by_cases hx : x ∈ seen
      · rw [show dedupKeep seen (x :: xs) = dedupKeep seen xs from by
          simp only [dedupKeep]; rw [if_pos (includes_iff.2 hx)]]
        rw [ih]
        simp only [List.mem_cons]
        constructor
        · rintro ⟨h1, h2⟩
          exact ⟨Or.inr h1, h2⟩
        · rintro ⟨rfl | h1, h2⟩
          · exact absurd hx h2
          · exact ⟨h1, h2⟩
      · rw [show dedupKeep seen (x :: xs) = x :: dedupKeep (x :: seen) xs from by
          simp only [dedupKeep]; rw [if_neg (fun hc => hx (includes_iff.1 hc))]]
        simp only [List.mem_cons, ih]
        constructor
        · rintro (rfl | ⟨h1, h2⟩)
          · exact ⟨Or.inl rfl, hx⟩
          · exact ⟨Or.inr h1, fun hc => h2 (Or.inr hc)⟩
        · rintro ⟨h1, h2⟩
          by_cases hcx : c = x
          · exact Or.inl hcx
          · rcases h1 with rfl | h1
            · exact Or.inl rfl
            · exact Or.inr ⟨h1, fun hc => hc.elim hcx h2⟩

/-- Membership in the lodash intersection of a non-empty family. -/
theorem mem_intersectionLists {c : String} (xs : List String)
    (rest : List (List String)) :
    c ∈ intersectionLists (xs :: rest) ↔ c ∈ xs ∧ ∀ ys ∈ rest, c ∈ ys := by
  show c ∈ dedupKeep [] (xs.filter fun c => rest.all fun ys => includes ys c) ↔ _
  rw [mem_dedupKeep]
  simp [List.mem_filter, List.all_eq_true, includes_iff]

/-- Claim C7: a column is a global common column iff the registry is
non-empty and every dataset has it; a column is a board common column iff
the board uses a dataset and every used dataset has it; and the column sets
A,B,C and B,C,D intersect to exactly B,C. -/
theorem C7_common_columns (datasets : List Dataset) (c : String) (board : Board) :
    (c ∈ commonColumns datasets ↔ datasets ≠ [] ∧ ∀ d ∈ datasets, c ∈ d.columns) ∧
    (c ∈ boardColumns datasets board ↔
      usedDatasets datasets board ≠ [] ∧
        ∀ d ∈ usedDatasets datasets board, c ∈ d.columns) ∧
    commonColumns [dsABC, dsBCD] = ["B", "C"] := by
  refine ⟨?_, ?_, by decide⟩
  · match datasets with
    | [] => simp [commonColumns]
    | [d] => simp [commonColumns]
    | d₁ :: d₂ :: ds =>
        show c ∈ intersectionLists ((d₁ :: d₂ :: ds).map fun d => d.columns) ↔ _
        rw [List.map_cons, mem_intersectionLists]
        simp [List.forall_mem_cons]
  · rcases hu : usedDatasets datasets board with _ | ⟨u, us⟩
    · simp [boardColumns, hu]
    · unfold boardColumns
      rw [hu]
      simp only [List.length_cons, List.map_cons, Nat.succ_ne_zero, if_false,
        mem_intersectionLists]
      simp [List.forall_mem_cons]

/-- A key of the sample row always reads back a value. -/
theorem getVal_isSome_of_mem {row : Row} {c : String} (h : c ∈ columnsOf row) :
    ∃ v, getVal row c = some v := by
  induction row with
  | nil => simp [columnsOf] at h
  | cons p rest ih =>
      obtain ⟨k, v⟩ := p
      by_cases hk : k = c
      · exact ⟨v, by simp [getVal, hk]⟩
      · have h' : c ∈ columnsOf rest := by
          rcases List.mem_cons.1 h with hck | h'
          · exact absurd hck.symm hk
          · exact h'
        obtain ⟨v', hv⟩ := ih h'
        exact ⟨v', by simp [getVal, hk, hv]⟩

/-- The classification is numeric exactly when the numeric test holds. -/
theorem classifyValue_numeric {dp : String → Bool} {v : Value} :
    classifyValue dp v = ColClass.numeric ↔ isNumCheck v = true := by
  unfold classifyValue
  by_cases h1 : isNumCheck v <;> by_cases h2 : isDateCheck dp v <;> simp [h1, h2]

/-- The classification is date exactly when the numeric test fails and the
date test holds. -/
theorem classifyValue_date {dp : String → Bool} {v : Value} :
    classifyValue dp v = ColClass.date ↔
      (isNumCheck v = false ∧ isDateCheck dp v = true) := by
  unfold classifyValue
  by_cases h1 : isNumCheck v <;> by_cases h2 : isDateCheck dp v <;> simp [h1, h2]

/-- The classification is text exactly when both tests fail. -/
theorem classifyValue_text {dp : String → Bool} {v : Value} :
    classifyValue dp v = ColClass.text ↔
      (isNumCheck v = false ∧ isDateCheck dp v = false) := by
  unfold classifyValue
  by_cases h1 : isNumCheck v <;> by_cases h2 : isDateCheck dp v <;> simp [h1, h2]

/-- Claim C4, amended: a column of the first parsed row is classified
numeric iff its value coerces under Number to anything but NaN (an infinite
coercion also counts, unlike the spec's "finite") and is not boolean;
otherwise date iff the value parses as a date and its string form contains
a dash or slash; otherwise text — numeric wins over date, date over text,
and every column falls in exactly one class. -/
theorem C4_column_classification (dateParse : String → Bool) (row : Row) (c : String)
    (h : c ∈ columnsOf row) :
    ∃ v, getVal row c = some v ∧
      (c ∈ numericColumnsOf dateParse row ↔
        ((jsNumber v).isNaN = false ∧ isBoolVal v = false)) ∧
      (c ∈ dateColumnsOf dateParse row ↔
        (isNumCheck v = false ∧ dateParse (jsString v) = true ∧
          ((jsString v).contains '-' = true ∨ (jsString v).contains '/' = true))) ∧
      (c ∈ textColumnsOf dateParse row ↔
        (isNumCheck v = false ∧ isDateCheck dateParse v = false)) ∧
      (c ∈ numericColumnsOf dateParse row ∨ c ∈ dateColumnsOf dateParse row ∨
        c ∈ textColumnsOf dateParse row) := by
  obtain ⟨v, hv⟩ := getVal_isSome_of_mem h
  have hcc : classifyCol dateParse row c = classifyValue dateParse v := by
    unfold classifyCol
    rw [hv]
  have hnum : c ∈ numericColumnsOf dateParse row ↔ isNumCheck v = true := by
    unfold numericColumnsOf
    rw [List.mem_filter]
    simp [h, hcc, classifyValue_numeric]
  have hdate : c ∈ dateColumnsOf dateParse row ↔
      (isNumCheck v = false ∧ isDateCheck dateParse v = true) := by
    unfold dateColumnsOf
    rw [List.mem_filter]
    simp [h, hcc, classifyValue_date]
  have htext : c ∈ textColumnsOf dateParse row ↔
      (isNumCheck v = false ∧ isDateCheck dateParse v = false) := by
    unfold textColumnsOf
    rw [List.mem_filter]
    simp [h, hcc, classifyValue_text]
  refine ⟨v, hv, ?_, ?_, htext, ?_⟩
  · rw [hnum]
    unfold isNumCheck
    simp [Bool.and_eq_true, Bool.not_eq_true']
  · rw [hdate]
    unfold isDateCheck
    simp [Bool.and_eq_true, Bool.or_eq_true, and_assoc]
  · rcases h3 : classifyValue dateParse v with _ | _ | _
    · exact Or.inl (hnum.2 (classifyValue_numeric.1 h3))
    · exact Or.inr (Or.inl (hdate.2 (classifyValue_date.1 h3)))
    · exact Or.inr (Or.inr (htext.2 (classifyValue_text.1 h3)))

/-- Witness for C4 at a concrete first row with one numeric cell. -/
theorem C4_column_classification_witness :
    ∃ v, getVal numRow "a" = some v ∧
      ("a" ∈ numericColumnsOf dpNone numRow ↔
        ((jsNumber v).isNaN = false ∧ isBoolVal v = false)) ∧
      ("a" ∈ dateColumnsOf dpNone numRow ↔
        (isNumCheck v = false ∧ dpNone (jsString v) = true ∧
          ((jsString v).contains '-' = true ∨ (jsString v).contains '/' = true))) ∧
      ("a" ∈ textColumnsOf dpNone numRow ↔
        (isNumCheck v = false ∧ isDateCheck dpNone v = false)) ∧
      ("a" ∈ numericColumnsOf dpNone numRow ∨ "a" ∈ dateColumnsOf dpNone numRow ∨
        "a" ∈ textColumnsOf dpNone numRow) :=
  C4_column_classification dpNone numRow "a" (by decide)

/-- Counterexample to claim C4 as stated: the string Infinity coerces to an
infinite (not finite) number, yet the code classifies the column numeric and
not text, even when the date oracle accepts everything. -/
theorem C4_counterexample :
    "x" ∈ numericColumnsOf dpAll infRow ∧
    specIsNumeric (Value.vStr "Infinity") = false ∧
    "x" ∉ textColumnsOf dpAll infRow := by
  refine ⟨by decide, by decide, by decide⟩

/-- Claim C5: for every successfully imported dataset, if no column of the
first row classifies as text then the dataset's textColumns is the full
column list; hence a non-empty column list yields at least one text
column. -/
theorem C5_text_fallback (dateParse : String → Bool) (newId fileName : String)
    (jsonData : List Row) (ds : Dataset)
    (h : processParsedRows dateParse newId fileName jsonData = .ok ds) :
    (textColumnsOf dateParse jsonData.headI = [] → ds.textColumns = ds.columns) ∧
    (ds.columns ≠ [] → ds.textColumns ≠ []) := by
  match jsonData with
  | [] => simp [processParsedRows] at h
  | sampleRow :: rest =>
      simp only [processParsedRows, Except.ok.injEq] at h
      subst h
      constructor
      · show textColumnsOf dateParse (sampleRow :: rest).headI = [] →
          textColumnsFinal dateParse sampleRow = columnsOf sampleRow
        intro ht
        rw [show (sampleRow :: rest).headI = sampleRow from rfl] at ht
        unfold textColumnsFinal
        rw [ht]
        simp
      · show columnsOf sampleRow ≠ [] → textColumnsFinal dateParse sampleRow ≠ []
        intro hc hne
        unfold textColumnsFinal at hne
        by_cases hl : (textColumnsOf dateParse sampleRow).length > 0
        · rw [if_pos hl] at hne
          rw [hne] at hl
          simp at hl
        · rw [if_neg hl] at hne
          exact hc hne

/-- Witness for C5 at an import whose only column is numeric: the fallback
makes it the text column too. -/
theorem C5_text_fallback_witness :
    numRowDataset.textColumns = numRowDataset.columns ∧
    numRowDataset.textColumns ≠ [] := by
  have h : processParsedRows dpNone "id1" "n.xlsx" [numRow] = .ok numRowDataset := rfl
  exact ⟨(C5_text_fallback dpNone "id1" "n.xlsx" [numRow] numRowDataset h).1 (by decide),
    (C5_text_fallback dpNone "id1" "n.xlsx" [numRow] numRowDataset h).2 (by decide)⟩

/-- In a list whose images under `f` are distinct, an image that occurs at
all occurs in the `p`-filtered part exactly when it does not occur in the
complementary part. -/
theorem mem_map_filter_partition {α β : Type} [DecidableEq β] (l : List α) (f : α → β)
    (p : α → Bool) (hnd : (l.map f).Nodup) {x : β} (hx : x ∈ l.map f) :
    (x ∈ (l.filter p).map f ↔ x ∉ (l.filter (fun a => !p a)).map f) := by
  induction l with
  | nil => simp at hx
  | cons a t ih =>
      simp only [List.map_cons, List.nodup_cons] at hnd
      obtain ⟨hfa, hnd'⟩ := hnd
      have hsubP : ∀ q : α → Bool, x ∈ (t.filter q).map f → x ∈ t.map f :=
        fun q hq => List.map_subset f (List.Sublist.subset (List.filter_sublist t)) hq
      rcases List.mem_cons.1 hx with rfl | hxt
      · cases hp : p a
        · rw [List.filter_cons_of_neg (by simp [hp]),
            List.filter_cons_of_pos (by simp [hp])]
          simp only [List.map_cons, List.mem_cons, true_or, not_true, iff_false]
          intro hmem
          exact hfa (hsubP p hmem)
        · rw [List.filter_cons_of_pos (by simp [hp]),
            List.filter_cons_of_neg (by simp [hp])]
          simp only [List.map_cons, List.mem_cons, true_or, true_iff]
          intro hmem
          exact hfa (hsubP (fun a => !p a) hmem)
      · have hne : x ≠ f a := fun hc => hfa (hc ▸ hxt)
        cases hp : p a
        · rw [List.filter_cons_of_neg (by simp [hp]),
            List.filter_cons_of_pos (by simp [hp])]
          simp only [List.map_cons, List.mem_cons, not_or]
          rw [ih hnd' hxt]
          simp [hne]
        · rw [List.filter_cons_of_pos (by simp [hp]),
            List.filter_cons_of_neg (by simp [hp])]
          simp only [List.map_cons, List.mem_cons]
          rw [or_iff_right hne]
          exact ih hnd' hxt

/-- Under the board invariant, keeping the layout entries whose id is a
remaining widget id is the same as dropping the layout entries whose id is a
removed widget id. -/
theorem layout_filter_eq (b : Board) (id : String)
    (hnd : (b.widgets.map (fun w => w.i)).Nodup)
    (hli : ∀ x, x ∈ b.layout.map (fun l => l.i) ↔ x ∈ b.widgets.map (fun w => w.i)) :
    b.layout.filter (fun l =>
      includes ((b.widgets.filter (fun w => w.datasetId != id)).map (fun w => w.i)) l.i) =
    b.layout.filter (fun l => !includes (removedWidgetIds b id) l.i) := by
  refine List.filter_congr fun l hl => ?_
  have hx : l.i ∈ b.widgets.map (fun w => w.i) :=
    (hli l.i).1 (List.mem_map_of_mem _ hl)
  have hpart := mem_map_filter_partition b.widgets (fun w => w.i)
    (fun w => w.datasetId != id) hnd hx
  have hR : (b.widgets.filter (fun a => !(a.datasetId != id))).map (fun w => w.i) =
      removedWidgetIds b id := by
    unfold removedWidgetIds
    congr 1
    refine List.filter_congr fun w _ => ?_
    cases hdw : w.datasetId == id <;> simp [bne, hdw]
  rw [hR] at hpart
  rw [Bool.eq_iff_iff]
  simp only [Bool.not_eq_true', ← Bool.not_eq_true, includes_iff]
  exact hpart

/-- Claim C6: in a state where every board's layout ids coincide with its
(distinct) widget ids and every widget references a registered dataset,
deleting a dataset rewrites every board by removing exactly the widgets
bound to the deleted dataset and the layout entries carrying those widgets'
ids (all other widgets, layout entries and board fields are untouched), and
afterwards no board holds a widget whose dataset is gone. -/
theorem C6_dataset_deletion (st : AppState) (id : String)
    (hinv : ∀ b ∈ st.boards, ((b.widgets.map (fun w => w.i)).Nodup ∧
      ∀ x, x ∈ b.layout.map (fun l => l.i) ↔ x ∈ b.widgets.map (fun w => w.i)))
    (href : ∀ b ∈ st.boards, ∀ w ∈ b.widgets,
      w.datasetId ∈ st.datasets.map Dataset.id) :
    (removeDataset st id).boards = st.boards.map (fun b =>
      { b with widgets := b.widgets.filter (fun w => w.datasetId != id),
               layout := b.layout.filter (fun l => !includes (removedWidgetIds b id) l.i) }) ∧
    ∀ b ∈ (removeDataset st id).boards, ∀ w ∈ b.widgets,
      w.datasetId ∈ (removeDataset st id).datasets.map Dataset.id := by
  have hboards : (removeDataset st id).boards = st.boards.map (fun b =>
      { b with widgets := b.widgets.filter (fun w => w.datasetId != id),
               layout := b.layout.filter (fun l => !includes (removedWidgetIds b id) l.i) }) := by
    show st.boards.map _ = st.boards.map _
    refine List.map_congr_left fun b hb => ?_
    show ({ id := b.id, name := b.name,
            layout := b.layout.filter (fun l =>
              includes ((b.widgets.filter (fun w => w.datasetId != id)).map
                (fun w => w.i)) l.i),
            widgets := b.widgets.filter (fun w => w.datasetId != id),
            filters := b.filters, createdAt := b.createdAt } : Board) = _
    rw [layout_filter_eq b id (hinv b hb).1 (hinv b hb).2]
  refine ⟨hboards, ?_⟩
  intro b hb w hw
  rw [hboards] at hb
  obtain ⟨b₀, hb₀, rfl⟩ := List.mem_map.1 hb
  have hw' := List.mem_filter.1 hw
  have hwid : w.datasetId ≠ id := by
    have := hw'.2
    simpa using this
  have hold := href b₀ hb₀ w hw'.1
  obtain ⟨d, hd, hdid⟩ := List.mem_map.1 hold
  show w.datasetId ∈ (st.datasets.filter (fun d => d.id != id)).map Dataset.id
  refine List.mem_map.2 ⟨d, List.mem_filter.2 ⟨hd, ?_⟩, hdid⟩
  simp [hdid, hwid]

/-- Witness for C6: deleting dataset ds1 from the two-dataset state with one
board holding a widget on each dataset. -/
theorem C6_dataset_deletion_witness :
    ((removeDataset stMixed "ds1").boards = stMixed.boards.map (fun b =>
      { b with widgets := b.widgets.filter (fun w => w.datasetId != "ds1"),
               layout := b.layout.filter (fun l =>
                 !includes (removedWidgetIds b "ds1") l.i) }) ∧
    ∀ b ∈ (removeDataset stMixed "ds1").boards, ∀ w ∈ b.widgets,
      w.datasetId ∈ (removeDataset stMixed "ds1").datasets.map Dataset.id) :=
  C6_dataset_deletion stMixed "ds1"
    (by
      intro b hb
      rcases List.mem_singleton.1 hb with rfl
      exact ⟨by decide, fun x => Iff.rfl⟩)
    (by decide)

/-- Claim C9: when parsing fails (a corrupt workbook or an empty first
sheet), the import leaves the dataset registry and the active selection
unchanged and shows exactly one alert; an empty sheet is such a failure. -/
theorem C9_parse_failure (st : AppState) (dateParse : String → Bool)
    (newId fileName : String) (readResult : Except String (List Row)) (e : String)
    (h : importOutcome dateParse newId fileName readResult = .error e) :
    (handleFileChange st (importOutcome dateParse newId fileName readResult)).state.datasets
        = st.datasets ∧
    (handleFileChange st
        (importOutcome dateParse newId fileName readResult)).state.activeDatasetId
        = st.activeDatasetId ∧
    (handleFileChange st (importOutcome dateParse newId fileName readResult)).alerts
        = [parseErrorAlert] ∧
    importOutcome dateParse newId fileName (Except.ok []) =
      Except.error "Excel file is empty" := by
  rw [h]
  exact ⟨rfl, rfl, rfl, rfl⟩

/-- Witness for C9 at an import of an empty sheet into the mixed state. -/
theorem C9_parse_failure_witness :
    ((handleFileChange stMixed
        (importOutcome dpNone "id9" "f.xlsx" (Except.ok []))).state.datasets
        = stMixed.datasets ∧
    (handleFileChange stMixed
        (importOutcome dpNone "id9" "f.xlsx" (Except.ok []))).state.activeDatasetId
        = stMixed.activeDatasetId ∧
    (handleFileChange stMixed (importOutcome dpNone "id9" "f.xlsx" (Except.ok []))).alerts
        = [parseErrorAlert] ∧
    importOutcome dpNone "id9" "f.xlsx" (Except.ok []) =
      Except.error "Excel file is empty") :=
  C9_parse_failure stMixed dpNone "id9" "f.xlsx" (Except.ok []) "Excel file is empty" rfl

end Dashboard
